import Mathlib

/-!
# Verification of the OpenNext tag-aware incremental cache and revalidation dispatch

This development embeds, in Lean, the cache handler (`S3Cache` with its
`get` / `getFetchCache` / `getIncrementalCache` / `set` operations) and the
routing utilities (`fixCacheHeaderForHtmlPages`, `fixISRHeaders`,
`revalidateIfRequired` and its helpers) of the repository, and proves or
refutes the specified properties about them.

Conventions of the embedding:
* JS strings are Lean `String`s; JS byte `Buffer`s are `List Nat` with each
  entry `< 256`; JS numbers that hold integral timestamps are `Int`.
* The external collaborators (`IncrementalCache` object store, `TagCache`
  tag store, the revalidation queue) are not part of the sources; following
  their interface contracts they are modelled as explicit state inside a
  `World` structure, with per-operation failure injection flags in `Env` so
  that error-propagation behaviour of the embedded code is observable.
* Helper string functions re-implement the exact JS semantics used by the
  sources (`String.prototype.split(",")`, template interpolation of numbers,
  the `/s-maxage=(\d+)/` regex match, base64 and UTF-8 transcoding of
  buffers).
-/

/-- A JS header value as used in `OutgoingHttpHeaders`: a string or an array
of strings. -/
inductive HVal where
  | str (s : String)
  | arr (a : List String)
deriving DecidableEq, Repr

/-- A JS header object: association list, first binding wins (JS objects have
unique keys; `hSet` preserves uniqueness). -/
abbrev Headers := List (String × HVal)

/-- Read `headers[key]` (`undefined` modelled as `none`). -/
def hGet : Headers → String → Option HVal
  | [], _ => none
  | (k, v) :: rest, key => if k = key then some v else hGet rest key

/-- Write `headers[key] = v`. -/
def hSet : Headers → String → HVal → Headers
  | [], key, v => [(key, v)]
  | (k, w) :: rest, key, v =>
    if k = key then (key, v) :: rest else (k, w) :: hSet rest key v

/-- JS truthiness of a possibly-absent header value: `undefined` and `""` are
falsy; any array (even empty) is truthy. -/
def hTruthy : Option HVal → Bool
  | none => false
  | some (.str s) => s ≠ ""
  | some (.arr _) => true

/-- JS `String(x)` for a possibly-absent header value: `String(undefined)`
is `"undefined"`, an array is joined with `","`. -/
def jsString : Option HVal → String
  | none => "undefined"
  | some (.str s) => s
  | some (.arr a) => String.intercalate "," a

/-- Headers of a cached page artifact (`Record<string, undefined | string>`):
unlike route headers, values are plain strings. -/
abbrev PageHeaders := List (String × String)

/-- Read a page-header value. -/
def pGet : PageHeaders → String → Option String
  | [], _ => none
  | (k, v) :: rest, key => if k = key then some v else pGet rest key

/-- JS `s.split(",")` on the characters of `s`; splits at every comma, so
`""` yields `[""]` and a trailing comma yields a trailing `""`. -/
def splitCommaAux : List Char → List Char → List String
  | [], acc => [String.mk acc.reverse]
  | c :: rest, acc =>
    if c = ',' then String.mk acc.reverse :: splitCommaAux rest []
    else splitCommaAux rest (c :: acc)

/-- JS `s.split(",")`. -/
def jsSplitComma (s : String) : List String := splitCommaAux s.data []

/-- JS `s.startsWith(p)`. -/
def jsStartsWith (s p : String) : Bool := p.data.isPrefixOf s.data

/-- Decimal digit list of `n` (most significant first), fuel-driven so that
it reduces in the kernel. `fuel > n` suffices. -/
def natDecAux : Nat → Nat → List Char
  | 0, _ => []
  | fuel + 1, n =>
    if n < 10 then [Nat.digitChar n]
    else natDecAux fuel (n / 10) ++ [Nat.digitChar (n % 10)]

/-- Decimal rendering of a natural number, as JS renders an integral number
into a template literal. -/
def natDec (n : Nat) : String := String.mk (natDecAux (n + 1) n)

/-- JS rendering of an integral number (used for positive timestamps and
for the possibly negative remaining TTL). -/
def intDec (i : Int) : String :=
  if i < 0 then "-" ++ natDec (-i).toNat else natDec i.toNat

/-- Value of a decimal digit character. -/
def decVal (c : Char) : Nat := c.toNat - 48

/-- Parse a digit list (most significant first) back to a number. -/
def parseDec (l : List Char) : Nat := l.foldl (fun a c => 10 * a + decVal c) 0

theorem parseDec_append (l : List Char) (c : Char) :
    parseDec (l ++ [c]) = 10 * parseDec l + decVal c := by
  unfold parseDec
  rw [List.foldl_append]
  rfl

theorem decVal_digitChar (n : Nat) (h : n < 10) : decVal (Nat.digitChar n) = n := by
  interval_cases n <;> rfl

theorem parseDec_natDecAux (fuel n : Nat) (h : n < fuel) :
    parseDec (natDecAux fuel n) = n ∧ natDecAux fuel n ≠ [] := by
  induction fuel generalizing n with
  | zero => omega
  | succ fuel ih =>
    unfold natDecAux
    by_cases h10 : n < 10
    · rw [if_pos h10]
      refine ⟨?_, by simp⟩
      show 10 * 0 + decVal (Nat.digitChar n) = n
      rw [decVal_digitChar n h10]
      omega
    · rw [if_neg h10]
      have hdiv : n / 10 < fuel := by
        have := Nat.div_lt_self (by omega : 0 < n) (by omega : 1 < 10)
        omega
      obtain ⟨hp, hne⟩ := ih (n / 10) hdiv
      constructor
      · rw [parseDec_append, hp, decVal_digitChar _ (Nat.mod_lt n (by omega))]
        omega
      · simp

theorem natDec_inj (m n : Nat) (h : natDec m = natDec n) : m = n := by
  have hm := (parseDec_natDecAux (m + 1) m (by omega)).1
  have hn := (parseDec_natDecAux (n + 1) n (by omega)).1
  have : natDecAux (m + 1) m = natDecAux (n + 1) n := congrArg String.data h
  rw [← hm, ← hn, this]

theorem natDec_ne_empty (n : Nat) : natDec n ≠ "" := by
  have := (parseDec_natDecAux (n + 1) n (by omega)).2
  intro hc
  exact this (congrArg String.data hc)

/-- UTF-8 encoding of a Unicode scalar value (standard layout; the sources
reach this via Node's `Buffer.from(str, "utf8")`). -/
def utf8EncodeNat (n : Nat) : List Nat :=
  if n < 0x80 then [n]
  else if n < 0x800 then [0xC0 + n / 64, 0x80 + n % 64]
  else if n < 0x10000 then [0xE0 + n / 4096, 0x80 + (n / 64) % 64, 0x80 + n % 64]
  else [0xF0 + n / 262144, 0x80 + (n / 4096) % 64, 0x80 + (n / 64) % 64, 0x80 + n % 64]

/-- UTF-8 bytes of one character. -/
def utf8EncodeChar (c : Char) : List Nat := utf8EncodeNat c.toNat

/-- UTF-8 bytes of a character list. -/
def utf8EncodeList : List Char → List Nat
  | [] => []
  | c :: cs => utf8EncodeChar c ++ utf8EncodeList cs

/-- JS `Buffer.from(s, "utf8")`: the UTF-8 bytes of the string. -/
def utf8Encode (s : String) : List Nat := utf8EncodeList s.data

/-- The U+FFFD replacement character emitted for invalid byte sequences. -/
def utf8Repl : Char := Char.ofNat 0xFFFD

/-- Lower bound of the first continuation byte given the lead byte
(restricted ranges rule out overlong forms and code points above U+10FFFF). -/
def utf8ContLo (b0 : Nat) : Nat :=
  if b0 = 0xE0 then 0xA0 else if b0 = 0xF0 then 0x90 else 0x80

/-- Upper bound of the first continuation byte given the lead byte
(restricted ranges rule out surrogates and code points above U+10FFFF). -/
def utf8ContHi (b0 : Nat) : Nat :=
  if b0 = 0xED then 0x9F else if b0 = 0xF4 then 0x8F else 0xBF

/-- One step of UTF-8 decoding: given the lead byte and the remaining bytes,
the decoded character (U+FFFD on an invalid sequence) and how many
continuation bytes were consumed. Restricted continuation ranges rule out
overlong forms, surrogates and code points above U+10FFFF. -/
def utf8Step (b0 : Nat) (rest : List Nat) : Char × Nat :=
  if b0 < 0x80 then (Char.ofNat b0, 0)
  else if b0 < 0xC2 then (utf8Repl, 0)
  else if b0 < 0xE0 then
    match rest with
    | b1 :: _ =>
      if 0x80 ≤ b1 ∧ b1 ≤ 0xBF then (Char.ofNat ((b0 - 0xC0) * 64 + (b1 - 0x80)), 1)
      else (utf8Repl, 0)
    | [] => (utf8Repl, 0)
  else if b0 < 0xF0 then
    match rest with
    | b1 :: b2 :: _ =>
      if (utf8ContLo b0 ≤ b1 ∧ b1 ≤ utf8ContHi b0) ∧ (0x80 ≤ b2 ∧ b2 ≤ 0xBF) then
        (Char.ofNat ((b0 - 0xE0) * 4096 + (b1 - 0x80) * 64 + (b2 - 0x80)), 2)
      else (utf8Repl, 0)
    | _ => (utf8Repl, 0)
  else if b0 < 0xF5 then
    match rest with
    | b1 :: b2 :: b3 :: _ =>
      if (utf8ContLo b0 ≤ b1 ∧ b1 ≤ utf8ContHi b0) ∧ (0x80 ≤ b2 ∧ b2 ≤ 0xBF) ∧
          (0x80 ≤ b3 ∧ b3 ≤ 0xBF) then
        (Char.ofNat
            ((b0 - 0xF0) * 262144 + (b1 - 0x80) * 4096 + (b2 - 0x80) * 64 + (b3 - 0x80)), 3)
      else (utf8Repl, 0)
    | _ => (utf8Repl, 0)
  else (utf8Repl, 0)

/-- JS `buffer.toString("utf8")`: UTF-8 decoding with U+FFFD replacement of
invalid sequences. Only its behaviour on valid encodings matters to the
theorems below. -/
def utf8DecodeR : List Nat → List Char
  | [] => []
  | b0 :: rest =>
    (utf8Step b0 rest).1 :: utf8DecodeR (rest.drop (utf8Step b0 rest).2)
termination_by l => l.length
decreasing_by simp [List.length_drop]; omega

theorem char_toNat_valid (c : Char) :
    c.toNat < 0xD800 ∨ (0xE000 ≤ c.toNat ∧ c.toNat < 0x110000) := by
  have h := c.valid
  unfold UInt32.isValidChar Nat.isValidChar at h
  have e : c.toNat = c.val.toNat := rfl
  rcases h with h | h
  · left; omega
  · right; omega

theorem utf8DecodeR_nil : utf8DecodeR [] = [] := by
  rw [utf8DecodeR]

theorem utf8DecodeR_cons (b0 : Nat) (rest : List Nat) :
    utf8DecodeR (b0 :: rest) =
      (utf8Step b0 rest).1 :: utf8DecodeR (rest.drop (utf8Step b0 rest).2) := by
  rw [utf8DecodeR]

theorem utf8Step_one (b0 : Nat) (rest : List Nat) (h : b0 < 0x80) :
    utf8Step b0 rest = (Char.ofNat b0, 0) := by
  unfold utf8Step
  rw [if_pos h]

theorem utf8Step_two (b0 b1 : Nat) (rest : List Nat)
    (h0 : 0xC2 ≤ b0) (h0h : b0 ≤ 0xDF) (h1 : 0x80 ≤ b1 ∧ b1 ≤ 0xBF) :
    utf8Step b0 (b1 :: rest) = (Char.ofNat ((b0 - 0xC0) * 64 + (b1 - 0x80)), 1) := by
  unfold utf8Step
  rw [if_neg (by omega), if_neg (by omega), if_pos (by omega)]
  exact if_pos h1

theorem utf8Step_three (b0 b1 b2 : Nat) (rest : List Nat)
    (h0 : 0xE0 ≤ b0) (h0h : b0 ≤ 0xEF)
    (h12 : (utf8ContLo b0 ≤ b1 ∧ b1 ≤ utf8ContHi b0) ∧ (0x80 ≤ b2 ∧ b2 ≤ 0xBF)) :
    utf8Step b0 (b1 :: b2 :: rest) =
      (Char.ofNat ((b0 - 0xE0) * 4096 + (b1 - 0x80) * 64 + (b2 - 0x80)), 2) := by
  unfold utf8Step
  rw [if_neg (by omega), if_neg (by omega), if_neg (by omega), if_pos (by omega)]
  exact if_pos h12

theorem utf8Step_four (b0 b1 b2 b3 : Nat) (rest : List Nat)
    (h0 : 0xF0 ≤ b0) (h0h : b0 ≤ 0xF4)
    (h123 : (utf8ContLo b0 ≤ b1 ∧ b1 ≤ utf8ContHi b0) ∧ (0x80 ≤ b2 ∧ b2 ≤ 0xBF) ∧
      (0x80 ≤ b3 ∧ b3 ≤ 0xBF)) :
    utf8Step b0 (b1 :: b2 :: b3 :: rest) =
      (Char.ofNat ((b0 - 0xF0) * 262144 + (b1 - 0x80) * 4096 + (b2 - 0x80) * 64 + (b3 - 0x80)),
        3) := by
  unfold utf8Step
  rw [if_neg (by omega), if_neg (by omega), if_neg (by omega), if_neg (by omega),
    if_pos (by omega)]
  exact if_pos h123

theorem utf8DecodeR_encodeNat (n : Nat) (bs : List Nat)
    (hval : n < 0xD800 ∨ (0xE000 ≤ n ∧ n < 0x110000)) :
    utf8DecodeR (utf8EncodeNat n ++ bs) = Char.ofNat n :: utf8DecodeR bs := by
  by_cases h1 : n < 0x80
  · rw [utf8EncodeNat, if_pos h1, List.cons_append, List.nil_append, utf8DecodeR_cons,
      utf8Step_one _ _ h1]
    simp
  by_cases h2 : n < 0x800
  · rw [utf8EncodeNat, if_neg h1, if_pos h2]
    simp only [List.cons_append, List.nil_append]
    rw [utf8DecodeR_cons, utf8Step_two _ _ bs (by omega) (by omega) (by omega)]
    simp only [List.drop_succ_cons, List.drop_zero]
    have harith : (0xC0 + n / 64 - 0xC0) * 64 + (0x80 + n % 64 - 0x80) = n := by omega
    rw [harith]
  by_cases h3 : n < 0x10000
  · rw [utf8EncodeNat, if_neg h1, if_neg h2, if_pos h3]
    simp only [List.cons_append, List.nil_append]
    rw [utf8DecodeR_cons, utf8Step_three _ _ _ bs (by omega) (by omega) ?hc]
    case hc =>
      unfold utf8ContLo utf8ContHi
      split_ifs <;> omega
    simp only [List.drop_succ_cons, List.drop_zero]
    have harith : (0xE0 + n / 4096 - 0xE0) * 4096 + (0x80 + n / 64 % 64 - 0x80) * 64 +
        (0x80 + n % 64 - 0x80) = n := by omega
    rw [harith]
  · rw [utf8EncodeNat, if_neg h1, if_neg h2, if_neg h3]
    simp only [List.cons_append, List.nil_append]
    rw [utf8DecodeR_cons, utf8Step_four _ _ _ _ bs (by omega) (by omega) ?hd]
    case hd =>
      unfold utf8ContLo utf8ContHi
      split_ifs <;> omega
    simp only [List.drop_succ_cons, List.drop_zero]
    have harith : (0xF0 + n / 262144 - 0xF0) * 262144 + (0x80 + n / 4096 % 64 - 0x80) * 4096 +
        (0x80 + n / 64 % 64 - 0x80) * 64 + (0x80 + n % 64 - 0x80) = n := by omega
    rw [harith]

theorem utf8DecodeR_encodeChar (c : Char) (bs : List Nat) :
    utf8DecodeR (utf8EncodeChar c ++ bs) = c :: utf8DecodeR bs := by
  rw [utf8EncodeChar, utf8DecodeR_encodeNat c.toNat bs (char_toNat_valid c),
    Char.ofNat_toNat]

theorem utf8DecodeR_encodeList (l : List Char) : utf8DecodeR (utf8EncodeList l) = l := by
  induction l with
  | nil => exact utf8DecodeR_nil
  | cons c cs ih =>
    rw [utf8EncodeList, utf8DecodeR_encodeChar, ih]

/-- Decoding the UTF-8 encoding of a string gives back its characters. -/
theorem utf8DecodeR_utf8Encode (s : String) : utf8DecodeR (utf8Encode s) = s.data :=
  utf8DecodeR_encodeList s.data

/-- The base64 alphabet. -/
def b64Alphabet : List Char :=
  "ABCDEFGHIJKLMNOPQRSTUVWXYZabcdefghijklmnopqrstuvwxyz0123456789+/".data

/-- Character used for sextet `n`. -/
def b64Chr (n : Nat) : Char := b64Alphabet.getD n '='

/-- Index of a character in the base64 alphabet (64 when absent). -/
def b64ValAux : List Char → Char → Nat
  | [], _ => 64
  | a :: rest, c => if a = c then 0 else 1 + b64ValAux rest c

/-- Sextet value of a base64 character. -/
def b64Val (c : Char) : Nat := b64ValAux b64Alphabet c

/-- JS `buffer.toString("base64")` on the byte list: standard padded base64,
three bytes to four characters. -/
def base64EncodeList : List Nat → List Char
  | [] => []
  | [a] => [b64Chr (a / 4), b64Chr (a % 4 * 16), '=', '=']
  | [a, b] => [b64Chr (a / 4), b64Chr (a % 4 * 16 + b / 16), b64Chr (b % 16 * 4), '=']
  | a :: b :: c :: rest =>
    b64Chr (a / 4) :: b64Chr (a % 4 * 16 + b / 16) :: b64Chr (b % 16 * 4 + c / 64) ::
      b64Chr (c % 64) :: base64EncodeList rest

/-- JS `buffer.toString("base64")`. -/
def base64Encode (l : List Nat) : String := String.mk (base64EncodeList l)

/-- JS `Buffer.from(s, "base64")` on the characters: decode four characters
to three bytes, honouring `=` padding. -/
def base64DecodeList : List Char → List Nat
  | a :: b :: c :: d :: rest =>
    if c = '=' then [b64Val a * 4 + b64Val b / 16]
    else if d = '=' then [b64Val a * 4 + b64Val b / 16, b64Val b % 16 * 16 + b64Val c / 4]
    else
      (b64Val a * 4 + b64Val b / 16) :: (b64Val b % 16 * 16 + b64Val c / 4) ::
        (b64Val c % 4 * 64 + b64Val d) :: base64DecodeList rest
  | _ => []

/-- JS `Buffer.from(s, "base64")`. -/
def base64Decode (s : String) : List Nat := base64DecodeList s.data

theorem b64Val_b64Chr : ∀ n, n < 64 → b64Val (b64Chr n) = n := by decide

theorem b64Chr_ne_pad : ∀ n, n < 64 → b64Chr n ≠ '=' := by decide

theorem base64_roundtrip : ∀ l : List Nat, (∀ x ∈ l, x < 256) →
    base64DecodeList (base64EncodeList l) = l
  | [], _ => rfl
  | [a], h => by
    have ha : a < 256 := h a (by simp)
    rw [base64EncodeList, base64DecodeList, if_pos rfl,
      b64Val_b64Chr _ (by omega), b64Val_b64Chr _ (by omega)]
    have e1 : a / 4 * 4 + a % 4 * 16 / 16 = a := by omega
    rw [e1]
  | [a, b], h => by
    have ha : a < 256 := h a (by simp)
    have hb : b < 256 := h b (by simp)
    rw [base64EncodeList, base64DecodeList,
      if_neg (b64Chr_ne_pad _ (by omega)), if_pos rfl,
      b64Val_b64Chr _ (by omega), b64Val_b64Chr _ (by omega), b64Val_b64Chr _ (by omega)]
    have e1 : a / 4 * 4 + (a % 4 * 16 + b / 16) / 16 = a := by omega
    have e2 : (a % 4 * 16 + b / 16) % 16 * 16 + b % 16 * 4 / 4 = b := by omega
    rw [e1, e2]
  | a :: b :: c :: rest, h => by
    have ha : a < 256 := h a (by simp)
    have hb : b < 256 := h b (by simp)
    have hc : c < 256 := h c (by simp)
    have ih := base64_roundtrip rest (fun x hx => h x (by simp [hx]))
    rw [base64EncodeList, base64DecodeList,
      if_neg (b64Chr_ne_pad _ (by omega)), if_neg (b64Chr_ne_pad _ (by omega)),
      b64Val_b64Chr _ (by omega), b64Val_b64Chr _ (by omega), b64Val_b64Chr _ (by omega),
      b64Val_b64Chr _ (by omega), ih]
    have e1 : a / 4 * 4 + (a % 4 * 16 + b / 16) / 16 = a := by omega
    have e2 : (a % 4 * 16 + b / 16) % 16 * 16 + (b % 16 * 4 + c / 64) / 4 = b := by omega
    have e3 : (b % 16 * 4 + c / 64) % 4 * 64 + c % 64 = c := by omega
    rw [e1, e2, e3]

/-- Byte-level base64 round trip expressed on strings. -/
theorem base64Decode_base64Encode (l : List Nat) (h : ∀ x ∈ l, x < 256) :
    base64Decode (base64Encode l) = l :=
  base64_roundtrip l h

/-- An opaque JSON object value (the engine never inspects `props` /
pages-shape `pageData`; any type with decidable equality represents it). -/
structure JsObj where
  fields : List (String × String)
deriving DecidableEq, Repr

/-- `CachedFetchValue.data`. -/
structure FetchData where
  headers : List (String × String)
  body : String
  url : String
  status : Option Nat
  tags : Option (List String)
deriving DecidableEq, Repr

/-- `CachedFetchValue` (`kind: "FETCH"`). -/
structure FetchVal where
  data : FetchData
  revalidate : Nat
deriving DecidableEq, Repr

/-- `CachedImageValue` (`kind: "IMAGE"`). -/
structure ImageVal where
  etag : String
  buffer : List Nat
  extension : String
  isMiss : Option Bool
  isStale : Option Bool
deriving DecidableEq, Repr

/-- The secondary payload of a page artifact; the source dispatches on
`typeof pageData === "string"` (`app`) versus anything else (`pages`). -/
inductive PageData where
  | app (rsc : String)
  | pages (json : JsObj)
deriving DecidableEq, Repr

/-- `IncrementalCacheValue`: the five artifact kinds. -/
inductive CacheValue where
  | route (body : List Nat) (status : Nat) (headers : Headers)
  | page (html : String) (pageData : PageData) (status : Option Nat)
      (headers : Option PageHeaders)
  | redirect (props : JsObj)
  | fetch (f : FetchVal)
  | image (img : ImageVal)
deriving DecidableEq, Repr

/-- The wire records `S3Cache.set` writes to the non-fetch artifact store
(`type: "route" | "app" | "page" | "redirect"`); route records carry a
`meta` with status and headers, page records do not. -/
inductive Wire where
  | route (body : String) (status : Nat) (headers : Headers)
  | app (html rsc : String)
  | page (html : String) (json : JsObj)
  | redirect (props : JsObj)
deriving DecidableEq, Repr

/-- A recorded collaborator call (store/tag spy, for frame properties). -/
inductive StoreOp where
  | clientSet (key : String) (isFetch : Bool)
  | clientDelete (key : String)
  | tagGetByPath (key : String)
  | tagWriteTags (pairs : List (String × String))
deriving DecidableEq, Repr

/-- Association-list lookup (string-keyed external stores). -/
def assocLookup {α : Type} : List (String × α) → String → Option α
  | [], _ => none
  | (k, v) :: rest, key => if k = key then some v else assocLookup rest key

/-- Association-list update. -/
def assocSet {α : Type} : List (String × α) → String → α → List (String × α)
  | [], key, v => [(key, v)]
  | (k, w) :: rest, key, v =>
    if k = key then (key, v) :: rest else (k, w) :: assocSet rest key v

/-- Association-list removal. -/
def assocRemove {α : Type} : List (String × α) → String → List (String × α)
  | [], _ => []
  | (k, w) :: rest, key => if k = key then rest else (k, w) :: assocRemove rest key

/-- Modelled from the spec: combined state of the external collaborators
(`ArtifactStore` with its non-fetch and fetch variants and per-key last
write time, the `TagIndex` binding list) plus the `globalThis.lastModified`
request-scoped record mutated by `getIncrementalCache`, and a trace of
collaborator calls. The backing stores themselves are outside the sources;
their interface contracts (§6) determine this model. -/
structure World where
  mainStore : List (String × (Wire × Int))
  fetchStore : List (String × (FetchVal × Int))
  bindings : List (String × String)
  lastModifiedMap : List (String × Int)
  trace : List StoreOp
deriving DecidableEq, Repr

/-- Ambient environment of a call: the global disable flag, the clock, the
request id (`globalThis.__als.getStore()`), the external
`isBinaryContentType` classifier (from `binary.js`, not part of the
sources; modelled from the spec as an arbitrary content-type predicate),
the external `tagClient.getLastModified` oracle, and failure-injection
flags for each collaborator call. -/
structure Env where
  disableIncrementalCache : Bool
  now : Int
  requestId : String
  isBinaryContentType : String → Bool
  tagLastModified : String → Option Int → Int
  failClientGet : Bool
  failClientSet : Bool
  failClientDelete : Bool
  failTagGetByPath : Bool
  failTagWriteTags : Bool
  failQueueSend : Bool

/-- Modelled from the spec: `ArtifactStore.set(key, wireRecord, false)`
(awaited; a rejection propagates). -/
def clientSetMain (env : Env) (w : World) (key : String) (wire : Wire) :
    Except Unit World :=
  if env.failClientSet then .error ()
  else
    .ok { w with
      mainStore := assocSet w.mainStore key (wire, env.now),
      trace := w.trace ++ [.clientSet key false] }

/-- Modelled from the spec: `ArtifactStore.set(key, wireRecord, false)`
called without `await` (page artifacts): a rejection is dropped, never
surfaced to the caller. -/
def clientSetMainNoAwait (env : Env) (w : World) (key : String) (wire : Wire) : World :=
  if env.failClientSet then w
  else
    { w with
      mainStore := assocSet w.mainStore key (wire, env.now),
      trace := w.trace ++ [.clientSet key false] }

/-- Modelled from the spec: `ArtifactStore.set(key, value, true)` (fetch
variant, awaited). -/
def clientSetFetch (env : Env) (w : World) (key : String) (f : FetchVal) :
    Except Unit World :=
  if env.failClientSet then .error ()
  else
    .ok { w with
      fetchStore := assocSet w.fetchStore key (f, env.now),
      trace := w.trace ++ [.clientSet key true] }

/-- Modelled from the spec: `ArtifactStore.delete(key)` (awaited). -/
def clientDelete (env : Env) (w : World) (key : String) : Except Unit World :=
  if env.failClientDelete then .error ()
  else
    .ok { w with
      mainStore := assocRemove w.mainStore key,
      trace := w.trace ++ [.clientDelete key] }

/-- Modelled from the spec: `TagIndex.getTagsForKey` /
`tagClient.getByPath(key)` — all tags currently bound to the key. -/
def tagGetByPath (env : Env) (w : World) (key : String) :
    Except Unit (List String × World) :=
  if env.failTagGetByPath then .error ()
  else
    .ok ((w.bindings.filter (fun p => p.1 == key)).map (fun p => p.2),
      { w with trace := w.trace ++ [.tagGetByPath key] })

/-- Modelled from the spec: `TagIndex.bindTags` / `tagClient.writeTags` —
appends the given bindings. -/
def tagWriteTags (env : Env) (w : World) (pairs : List (String × String)) :
    Except Unit World :=
  if env.failTagWriteTags then .error ()
  else
    .ok { w with
      bindings := w.bindings ++ pairs,
      trace := w.trace ++ [.tagWriteTags pairs] }

/-- The `IncrementalCacheContext` argument of `set`; only its `tags` field
is ever read by the sources. -/
structure SetCtx where
  tags : Option (List String)
deriving DecidableEq, Repr

/-- The derived tag list of a write:
`ctx?.tags ?? data?.data?.tags ?? []` for fetch artifacts,
`data.headers?.["x-next-cache-tags"]?.split(",") ?? []` for page
artifacts, `[]` for every other kind. -/
def derivedTags (data : Option CacheValue) (ctx : Option SetCtx) : List String :=
  match data with
  | some (.fetch f) =>
    match ctx with
    | some c =>
      match c.tags with
      | some ts => ts
      | none => f.data.tags.getD []
    | none => f.data.tags.getD []
  | some (.page _ _ _ headers) =>
    match headers with
    | some h =>
      match pGet h "x-next-cache-tags" with
      | some s => jsSplitComma s
      | none => []
    | none => []
  | _ => []

/-- `body.toString(isBinary ? "base64" : "utf8")`. -/
def bufToString (bin : Bool) (body : List Nat) : String :=
  if bin then base64Encode body else String.mk (utf8DecodeR body)

/-- `Buffer.from(str, isBinary ? "base64" : "utf8")`. -/
def bufFrom (bin : Bool) (s : String) : List Nat :=
  if bin then base64Decode s else utf8Encode s

/-- The persistence half of `S3Cache.set`: the `if/else` chain on
`data?.kind` (route/redirect/fetch awaited, page not awaited, `IMAGE`
silently skipped, null tombstone-deleted). -/
def setPersist (env : Env) (w : World) (key : String) (data : Option CacheValue) :
    Except Unit World :=
  match data with
  | some (.route body status headers) =>
    clientSetMain env w key
      (.route
        (bufToString (env.isBinaryContentType (jsString (hGet headers "content-type")))
          body)
        status headers)
  | some (.page html pd _ _) =>
    match pd with
    | .app rsc => .ok (clientSetMainNoAwait env w key (.app html rsc))
    | .pages json => .ok (clientSetMainNoAwait env w key (.page html json))
  | some (.fetch f) => clientSetFetch env w key f
  | some (.redirect props) => clientSetMain env w key (.redirect props)
  | some (.image _) => .ok w
  | none => clientDelete env w key

/-- The tag half of `S3Cache.set`: read the key's stored tags, keep only
the derived tags not yet stored, and write those bindings (skipping the
write when there are none). -/
def setTagPhase (env : Env) (w1 : World) (key : String) (derived : List String) :
    Except Unit World :=
  match tagGetByPath env w1 key with
  | .error e => .error e
  | .ok (storedTags, w2) =>
    let tagsToWrite := derived.filter (fun t => !(storedTags.contains t))
    if tagsToWrite.length > 0 then
      tagWriteTags env w2 (tagsToWrite.map (fun t => (key, t)))
    else .ok w2

/-- `S3Cache.set(key, data?, ctx?)`: short-circuits on the disable flag;
persists the encoded artifact by kind, then derives tags and writes the
missing bindings. -/
def S3Cache.set (env : Env) (w : World) (key : String) (data : Option CacheValue)
    (ctx : Option SetCtx) : Except Unit World :=
  if env.disableIncrementalCache then .ok w
  else
    match setPersist env w key data with
    | .error e => .error e
    | .ok w1 => setTagPhase env w1 key (derivedTags data ctx)

/-- The `{ lastModified, value }` record returned by a cache hit. -/
structure CacheHandlerValue where
  lastModified : Int
  value : CacheValue
deriving DecidableEq, Repr

/-- `S3Cache.getFetchCache(key)`: reads the fetch store, consults the tag
staleness oracle (sentinel `-1` forces a miss), then returns the stored
value; any store failure is caught and becomes a miss. -/
def S3Cache.getFetchCache (env : Env) (w : World) (key : String) :
    Option CacheHandlerValue :=
  if env.failClientGet then none
  else
    let entry := assocLookup w.fetchStore key
    let lm := env.tagLastModified key (entry.map Prod.snd)
    if lm = -1 then none
    else
      match entry.map Prod.fst with
      | none => none
      | some f => some ⟨lm, .fetch f⟩

/-- The decoding `getIncrementalCache` applies to a stored wire record:
route bodies are rebuilt with `Buffer.from` under the same binary
classification of the stored content-type, route meta status/headers are
restored, page records decode with `meta?.status` / `meta?.headers` absent
(page wire records carry no meta), and the pages/app shape is rebuilt from
the `json` / `rsc` field. -/
def decodeWire (env : Env) : Wire → CacheValue
  | .route body status headers =>
    .route
      (bufFrom (env.isBinaryContentType (jsString (hGet headers "content-type"))) body)
      status headers
  | .app html rsc => .page html (.app rsc) none none
  | .page html json => .page html (.pages json) none none
  | .redirect props => .redirect props

/-- `S3Cache.getIncrementalCache(key)`: reads the non-fetch store, consults
the tag staleness oracle (sentinel `-1` forces a miss), records the
effective last-modified under the request id, then decodes the wire record
by its `type`; unknown/missing records and store failures become misses. -/
def S3Cache.getIncrementalCache (env : Env) (w : World) (key : String) :
    Option CacheHandlerValue × World :=
  if env.failClientGet then (none, w)
  else
    let entry := assocLookup w.mainStore key
    let lm := env.tagLastModified key (entry.map Prod.snd)
    if lm = -1 then (none, w)
    else
      let w1 :=
        { w with lastModifiedMap := assocSet w.lastModifiedMap env.requestId lm }
      match entry.map Prod.fst with
      | some wire => (some ⟨lm, decodeWire env wire⟩, w1)
      | none => (none, w1)

/-- The `kindHint` of a `get` options object. -/
inductive KindHint where
  | app
  | pages
  | fetch
deriving DecidableEq, Repr

/-- The `options` argument of the public `get`. -/
inductive GetOpts where
  | bool (b : Bool)
  | obj (fetchCache : Option Bool) (kindHint : Option KindHint)
deriving DecidableEq, Repr

/-- `typeof options === "object" ? (options.kindHint ? options.kindHint ===
"fetch" : options.fetchCache) : options`, as a truthiness value. -/
def isFetchCacheOpt (options : Option GetOpts) : Bool :=
  match options with
  | some (.obj fetchCache kindHint) =>
    match kindHint with
    | some kh => kh == .fetch
    | none => fetchCache.getD false
  | some (.bool b) => b
  | none => false

/-- Public `S3Cache.get(key, options?)`: disabled-flag short-circuit, then
dispatch to the fetch or incremental variant. -/
def S3Cache.get (env : Env) (w : World) (key : String) (options : Option GetOpts) :
    Option CacheHandlerValue × World :=
  if env.disableIncrementalCache then (none, w)
  else if isFetchCacheOpt options then (S3Cache.getFetchCache env w key, w)
  else S3Cache.getIncrementalCache env w key

/-- `CommonHeaders.CACHE_CONTROL`. -/
def cacheControlH : String := "cache-control"

/-- `CommonHeaders.NEXT_CACHE`. -/
def nextCacheH : String := "x-nextjs-cache"

/-- `fixCacheHeaderForHtmlPages(rawPath, headers)`: for paths listed in the
build-generated `HtmlPages` (external configuration, passed as a
parameter), overwrite the cache-control header with the HTML baseline —
but only when `headers["cache-control"]` is truthy. -/
def fixCacheHeaderForHtmlPages (htmlPages : List String) (rawPath : String)
    (headers : Headers) : Headers :=
  if htmlPages.contains rawPath && hTruthy (hGet headers cacheControlH) then
    hSet headers cacheControlH
      (.str "public, max-age=0, s-maxage=31536000, must-revalidate")
  else headers

/-- The literal `s-maxage=` scanned for by the regex `/s-maxage=(\d+)/`. -/
def sMaxAgeLit : List Char := "s-maxage=".data

/-- Try to strip an expected literal off the front of a character list. -/
def stripLit : List Char → List Char → Option (List Char)
  | [], l => some l
  | _, [] => none
  | p :: ps, c :: cs => if p = c then stripLit ps cs else none

/-- First match of `/s-maxage=(\d+)/`: scan for the literal followed by at
least one digit, capture the maximal digit run, `parseInt` it. -/
def findSMaxAgeAux : List Char → Option Nat
  | [] => none
  | c :: rest =>
    match stripLit sMaxAgeLit (c :: rest) with
    | some tail =>
      match tail with
      | d :: _ =>
        if d.isDigit then some (parseDec (tail.takeWhile Char.isDigit))
        else findSMaxAgeAux rest
      | [] => findSMaxAgeAux rest
    | none => findSMaxAgeAux rest

/-- `parseInt(cacheControl.match(/s-maxage=(\d+)/)?.[1])` as an `Option`. -/
def findSMaxAge (s : String) : Option Nat := findSMaxAgeAux s.data

/-- `Math.round(d / 1000)` for an integer `d` (thousandths rounded to
nearest, halves towards positive infinity). -/
def jsRoundDiv1000 (d : Int) : Int := Int.fdiv (2 * d + 1000) 2000

/-- `fixISRHeaders(headers)`, with `Date.now()` and the mutable
`globalThis.lastModified` made explicit: returns the updated headers and
the updated `globalThis.lastModified`.
`REVALIDATED` forces a private no-store header; `HIT` with a positive
recorded last-modified and a string cache-control rewrites a present,
truthy `s-maxage` that is not the 31536000 sentinel to the remaining TTL
(minimum 1) plus a 30-day `stale-while-revalidate`, then zeroes the
recorded last-modified; `STALE` forces
`s-maxage=2, stale-while-revalidate=2592000`. -/
def fixISRSMax (age : Int) (headers : Headers) (cacheControl : String) : Headers :=
  match findSMaxAge cacheControl with
  | some v =>
    if v ≠ 0 ∧ v ≠ 31536000 then
      hSet headers cacheControlH
        (.str ("s-maxage=" ++ intDec (max ((v : Int) - age) 1) ++
          ", stale-while-revalidate=2592000"))
    else headers
  | none => headers

/-- The `HIT`-with-recorded-last-modified branch of `fixISRHeaders`:
early-returns unchanged (and without zeroing the recorded last-modified)
when cache-control is not a string, else rewrites the remaining TTL via
`fixISRSMax` and zeroes the recorded last-modified. -/
def fixISRHitBranch (now lastModified : Int) (headers : Headers) : Headers × Int :=
  match hGet headers cacheControlH with
  | some (.str cacheControl) =>
    (fixISRSMax (jsRoundDiv1000 (now - lastModified)) headers cacheControl, 0)
  | _ => (headers, lastModified)

/-- `fixISRHeaders(headers)`, with `Date.now()` and the mutable
`globalThis.lastModified` made explicit: returns the updated headers and
the updated `globalThis.lastModified`.
`REVALIDATED` forces a private no-store header; `HIT` with a positive
recorded last-modified and a string cache-control rewrites a present,
truthy `s-maxage` that is not the 31536000 sentinel to the remaining TTL
(minimum 1) plus a 30-day `stale-while-revalidate`, then zeroes the
recorded last-modified; `STALE` forces
`s-maxage=2, stale-while-revalidate=2592000`. -/
def fixISRHeaders (now : Int) (headers : Headers) (lastModified : Int) :
    Headers × Int :=
  if hGet headers nextCacheH = some (.str "REVALIDATED") then
    (hSet headers cacheControlH
      (.str "private, no-cache, no-store, max-age=0, must-revalidate"), lastModified)
  else if hGet headers nextCacheH = some (.str "HIT") ∧ lastModified > 0 then
    fixISRHitBranch now lastModified headers
  else if hGet headers nextCacheH = some (.str "STALE") then
    (hSet headers cacheControlH (.str "s-maxage=2, stale-while-revalidate=2592000"),
      lastModified)
  else (headers, lastModified)

/-- The `NextInternalRequestMeta` fields read by `revalidateIfRequired`. -/
structure RequestMeta where
  nextDidRewrite : Bool
  nextRewroteUrl : String
deriving DecidableEq, Repr

/-- The revalidation target URL: on an internally rewritten request whose
original `rawPath` is a `/_next/data/` request, rebuild the data-artifact
URL from the build id and the rewritten path; otherwise the rewritten URL
itself; without a rewrite, the raw path. -/
def revalidateUrl (buildId : String) : Option RequestMeta → String → String
  | some m, rawPath =>
    if m.nextDidRewrite then
      if jsStartsWith rawPath "/_next/data/" then
        "/_next/data/" ++ buildId ++ m.nextRewroteUrl ++ ".json"
      else m.nextRewroteUrl
    else rawPath
  | none, rawPath => rawPath

/-- The string fed to the MD5 digest that becomes `MessageDeduplicationId`:
`` `${rawPath}-${lastModified}` `` where the recorded last-modified is
used only when positive. MD5 itself is a fixed external digest applied to
exactly this preimage, so equality and distinctness of the submitted dedup
id are determined by this string. -/
def dedupFingerprint (rawPath : String) (lastModified : Int) : String :=
  rawPath ++ "-" ++ (if lastModified > 0 then natDec lastModified.toNat else "")

/-- 32-bit truncating multiplication (`Math.imul` bit pattern). -/
def imul32 (a b : Nat) : Nat := a * b % 4294967296

/-- Coercion of a JS number to its unsigned 32-bit bit pattern. -/
def u32 (a : Nat) : Nat := a % 4294967296

/-- `>>> n` on a 32-bit pattern. -/
def shr32 (a n : Nat) : Nat := a / 2 ^ n

/-- The four 32-bit state words of `cyrb128`. -/
structure Cyrb where
  h1 : Nat
  h2 : Nat
  h3 : Nat
  h4 : Nat

/-- One `cyrb128` loop iteration for character code `k`. -/
def cyrbStep (st : Cyrb) (k : Nat) : Cyrb :=
  let h1 := Nat.xor st.h2 (imul32 (Nat.xor st.h1 k) 597399067)
  let h2 := Nat.xor st.h3 (imul32 (Nat.xor st.h2 k) 2869860233)
  let h3 := Nat.xor st.h4 (imul32 (Nat.xor st.h3 k) 951274213)
  let h4 := Nat.xor h1 (imul32 (Nat.xor st.h4 k) 2716044179)
  ⟨h1, h2, h3, h4⟩

/-- `cyrb128(str)` returning `h1 >>> 0` (the seed used by the lane
generator); character codes are the code points of the path string
(coinciding with JS `charCodeAt` on the ASCII paths involved). -/
def cyrb128 (str : String) : Nat :=
  let st := str.data.foldl (fun st c => cyrbStep st c.toNat) ⟨1779033703, 3144134277, 1013904242, 2773480762⟩
  let h1 := imul32 (Nat.xor st.h3 (shr32 st.h1 18)) 597399067
  let h2 := imul32 (Nat.xor st.h4 (shr32 st.h2 22)) 2869860233
  let h3 := imul32 (Nat.xor h1 (shr32 st.h3 17)) 951274213
  let h4 := imul32 (Nat.xor h2 (shr32 st.h4 19)) 2716044179
  Nat.xor h1 (Nat.xor h2 (Nat.xor h3 h4))

/-- `generateMessageGroupId(rawPath)`: seed `cyrb128(rawPath)`, one
mulberry32 step to a float in `[0,1)`, scaled to
`[0, MAX_REVALIDATE_CONCURRENCY)` (the environment tunable, default 10). -/
def generateMessageGroupId (maxConcurrency : Nat) (rawPath : String) : String :=
  let a := cyrb128 rawPath
  let t0 := u32 (a + 0x6d2b79f5)
  let t1 := imul32 (Nat.xor t0 (shr32 t0 15)) (Nat.lor t0 1)
  let t2 := Nat.xor t1 (u32 (t1 + imul32 (Nat.xor t1 (shr32 t1 7)) (Nat.lor t1 61)))
  let u := Nat.xor t2 (shr32 t2 14)
  let randomInt := u * maxConcurrency / 4294967296
  "revalidate-" ++ natDec randomInt

/-- A message submitted to the revalidation queue; `dedupId` carries the
MD5 preimage (see `dedupFingerprint`). -/
structure QueueMsg where
  host : String
  url : String
  dedupId : String
  groupId : String
deriving DecidableEq, Repr

/-- `revalidateIfRequired(host, rawPath, headers, req)`: first
`fixISRHeaders`, then, when the cache state is `STALE`, build the
revalidation URL and submit `{host, url}` with the dedup fingerprint and
the lane group id; a queue failure is caught and logged. Returns the
updated headers, the updated recorded last-modified, and the submitted
message (if any). -/
def revalidateIfRequired (env : Env) (buildId : String) (maxConcurrency : Nat)
    (host rawPath : String) (headers : Headers) (internalMeta : Option RequestMeta)
    (lastModified : Int) : Headers × Int × Option QueueMsg :=
  let fixed := fixISRHeaders env.now headers lastModified
  if hGet fixed.1 nextCacheH = some (.str "STALE") then
    let url := revalidateUrl buildId internalMeta rawPath
    if env.failQueueSend then (fixed.1, fixed.2, none)
    else
      (fixed.1, fixed.2,
        some ⟨host, url, dedupFingerprint rawPath fixed.2,
          generateMessageGroupId maxConcurrency rawPath⟩)
  else (fixed.1, fixed.2, none)

theorem hGet_hSet_self (headers : Headers) (key : String) (v : HVal) :
    hGet (hSet headers key v) key = some v := by
  induction headers with
  | nil => simp [hSet, hGet]
  | cons p rest ih =>
    obtain ⟨k, w⟩ := p
    by_cases hk : k = key
    · rw [hSet]
      rw [if_pos hk, hGet, if_pos rfl]
    · rw [hSet]
      rw [if_neg hk, hGet, if_neg hk]
      exact ih

theorem hGet_hSet_ne (headers : Headers) (k1 k2 : String) (v : HVal) (hne : k1 ≠ k2) :
    hGet (hSet headers k1 v) k2 = hGet headers k2 := by
  induction headers with
  | nil => simp [hSet, hGet, if_neg hne]
  | cons p rest ih =>
    obtain ⟨k, w⟩ := p
    by_cases hk : k = k1
    · rw [hSet, if_pos hk, hGet, if_neg hne, hGet, if_neg (hk ▸ hne)]
    · rw [hSet, if_neg hk, hGet, hGet]
      by_cases hk2 : k = k2
      · rw [if_pos hk2, if_pos hk2]
      · rw [if_neg hk2, if_neg hk2]
        exact ih

theorem assocLookup_set_self {α : Type} (l : List (String × α)) (key : String) (v : α) :
    assocLookup (assocSet l key v) key = some v := by
  induction l with
  | nil => simp [assocSet, assocLookup]
  | cons p rest ih =>
    obtain ⟨k, w⟩ := p
    by_cases hk : k = key
    · rw [assocSet, if_pos hk, assocLookup, if_pos rfl]
    · rw [assocSet, if_neg hk, assocLookup, if_neg hk]
      exact ih

theorem string_data_inj (s t : String) (h : s.data = t.data) : s = t := by
  cases s
  cases t
  exact congrArg String.mk (by simpa using h)

/-- Right-cancellation of string concatenation. -/
theorem string_append_cancel_right (a b c : String) (h : a ++ c = b ++ c) : a = b := by
  apply string_data_inj
  have hd := congrArg String.data h
  rw [String.data_append, String.data_append] at hd
  exact List.append_cancel_right hd

/-- Left-cancellation of string concatenation. -/
theorem string_append_cancel_left (a b c : String) (h : a ++ b = a ++ c) : b = c := by
  apply string_data_inj
  have hd := congrArg String.data h
  rw [String.data_append, String.data_append] at hd
  exact List.append_cancel_left hd

/-- The tag view `tagClient.getByPath` has of a `World`. -/
def boundTags (w : World) (key : String) : List String :=
  (w.bindings.filter (fun p => p.1 == key)).map (fun p => p.2)

theorem fixISRSMax_none (age : Int) (headers : Headers) (cc : String)
    (hsm : findSMaxAge cc = none) : fixISRSMax age headers cc = headers := by
  unfold fixISRSMax
  rw [hsm]

theorem fixISRSMax_skip (age : Int) (headers : Headers) (cc : String) (v : Nat)
    (hsm : findSMaxAge cc = some v) (h : ¬(v ≠ 0 ∧ v ≠ 31536000)) :
    fixISRSMax age headers cc = headers := by
  unfold fixISRSMax
  rw [hsm]
  exact if_neg h

theorem fixISRSMax_rewrite (age : Int) (headers : Headers) (cc : String) (v : Nat)
    (hsm : findSMaxAge cc = some v) (h0 : v ≠ 0) (hs : v ≠ 31536000) :
    fixISRSMax age headers cc =
      hSet headers cacheControlH
        (.str ("s-maxage=" ++ intDec (max ((v : Int) - age) 1) ++
          ", stale-while-revalidate=2592000")) := by
  unfold fixISRSMax
  rw [hsm]
  exact if_pos ⟨h0, hs⟩

theorem fixISRHitBranch_str (now lm : Int) (headers : Headers) (cc : String)
    (hcc : hGet headers cacheControlH = some (.str cc)) :
    fixISRHitBranch now lm headers =
      (fixISRSMax (jsRoundDiv1000 (now - lm)) headers cc, 0) := by
  unfold fixISRHitBranch
  rw [hcc]

theorem fixISRHitBranch_none (now lm : Int) (headers : Headers)
    (hcc : hGet headers cacheControlH = none) :
    fixISRHitBranch now lm headers = (headers, lm) := by
  unfold fixISRHitBranch
  rw [hcc]

theorem fixISRHitBranch_arr (now lm : Int) (headers : Headers) (a : List String)
    (hcc : hGet headers cacheControlH = some (.arr a)) :
    fixISRHitBranch now lm headers = (headers, lm) := by
  unfold fixISRHitBranch
  rw [hcc]

/-- `fixISRHeaders` either leaves the headers alone or writes only the
cache-control key. -/
theorem fixISRHeaders_shape (now lm : Int) (headers : Headers) :
    (fixISRHeaders now headers lm).1 = headers ∨
    ∃ v, (fixISRHeaders now headers lm).1 = hSet headers cacheControlH v := by
  unfold fixISRHeaders
  by_cases h1 : hGet headers nextCacheH = some (.str "REVALIDATED")
  · rw [if_pos h1]
    right
    exact ⟨_, rfl⟩
  rw [if_neg h1]
  by_cases h2 : hGet headers nextCacheH = some (.str "HIT") ∧ lm > 0
  · rw [if_pos h2]
    cases hcc : hGet headers cacheControlH with
    | none =>
      rw [fixISRHitBranch_none now lm headers hcc]
      left
      rfl
    | some hv =>
      cases hv with
      | arr a =>
        rw [fixISRHitBranch_arr now lm headers a hcc]
        left
        rfl
      | str cc =>
        rw [fixISRHitBranch_str now lm headers cc hcc]
        cases hsm : findSMaxAge cc with
        | none =>
          rw [fixISRSMax_none _ headers cc hsm]
          left
          rfl
        | some v =>
          by_cases hcond : v ≠ 0 ∧ v ≠ 31536000
          · rw [fixISRSMax_rewrite _ headers cc v hsm hcond.1 hcond.2]
            right
            exact ⟨_, rfl⟩
          · rw [fixISRSMax_skip _ headers cc v hsm hcond]
            left
            rfl
  rw [if_neg h2]
  by_cases h3 : hGet headers nextCacheH = some (.str "STALE")
  · rw [if_pos h3]
    right
    exact ⟨_, rfl⟩
  · rw [if_neg h3]
    left
    rfl

/-- `fixISRHeaders` never touches the `x-nextjs-cache` header. -/
theorem fixISRHeaders_nextCache (now lm : Int) (headers : Headers) :
    hGet (fixISRHeaders now headers lm).1 nextCacheH = hGet headers nextCacheH := by
  rcases fixISRHeaders_shape now lm headers with h | ⟨v, h⟩
  · rw [h]
  · rw [h, hGet_hSet_ne _ _ _ _ (by decide)]

/-- C6: whenever the inbound cache-state header `x-nextjs-cache` equals
`STALE`, `fixISRHeaders` sets the outbound `cache-control` header to exactly
`s-maxage=2, stale-while-revalidate=2592000`, regardless of any prior
cache-control value. -/
theorem c6_stale_forces_swr_header (now lastModified : Int) (headers : Headers)
    (h : hGet headers nextCacheH = some (.str "STALE")) :
    hGet (fixISRHeaders now headers lastModified).1 cacheControlH =
      some (.str "s-maxage=2, stale-while-revalidate=2592000") := by
  unfold fixISRHeaders
  rw [h, if_neg (by decide), if_neg (fun hc => absurd hc.1 (by decide)), if_pos rfl]
  exact hGet_hSet_self headers cacheControlH _

/-- C6 witness: a concrete `STALE` response with a prior cache-control is
forced to the fixed value. -/
theorem c6_stale_forces_swr_header_witness :
    hGet (fixISRHeaders 0
        [(nextCacheH, HVal.str "STALE"), (cacheControlH, HVal.str "max-age=999")] 7).1
      cacheControlH =
      some (.str "s-maxage=2, stale-while-revalidate=2592000") :=
  c6_stale_forces_swr_header 0 7
    [(nextCacheH, HVal.str "STALE"), (cacheControlH, HVal.str "max-age=999")] rfl

/-- C7 counterexample: with cache state `HIT`, recorded last-modified 100s
ago and `cache-control: s-maxage=0` — an s-maxage that is present and not
equal to 31536000 — `fixISRHeaders` leaves the header unchanged instead of
rewriting it to `s-maxage=1, stale-while-revalidate=2592000` as the claim
requires: the source guard `sMaxAge && sMaxAge !== 31536000` treats the
parsed 0 as falsy. -/
theorem c7_zero_smaxage_not_rewritten :
    findSMaxAge "s-maxage=0" = some 0 ∧
    (fixISRHeaders 101000
        [(nextCacheH, HVal.str "HIT"), (cacheControlH, HVal.str "s-maxage=0")] 1000).1 =
      [(nextCacheH, HVal.str "HIT"), (cacheControlH, HVal.str "s-maxage=0")] ∧
    HVal.str "s-maxage=0" ≠ HVal.str "s-maxage=1, stale-while-revalidate=2592000" := by
  refine ⟨rfl, rfl, by decide⟩

/-- C7 (amended): with cache state `HIT`, a positive recorded last-modified
and a string cache-control whose parsed `s-maxage` is nonzero and not the
31536000 sentinel, the header is rewritten to
`s-maxage = max(s-maxage − age, 1)` plus `stale-while-revalidate=2592000`,
where `age = round((now − lastModified)/1000)`, and the recorded
last-modified is cleared afterward. -/
theorem c7_hit_rewrites_remaining_ttl (now lastModified : Int) (headers : Headers)
    (cc : String) (v : Nat)
    (hst : hGet headers nextCacheH = some (.str "HIT"))
    (hlm : lastModified > 0)
    (hcc : hGet headers cacheControlH = some (.str cc))
    (hv : findSMaxAge cc = some v) (hv0 : v ≠ 0) (hvs : v ≠ 31536000) :
    (fixISRHeaders now headers lastModified).1 =
      hSet headers cacheControlH
        (.str ("s-maxage=" ++
          intDec (max ((v : Int) - jsRoundDiv1000 (now - lastModified)) 1) ++
          ", stale-while-revalidate=2592000")) ∧
    (fixISRHeaders now headers lastModified).2 = 0 := by
  unfold fixISRHeaders
  rw [hst, if_neg (by decide), if_pos ⟨rfl, hlm⟩,
    fixISRHitBranch_str now lastModified headers cc hcc,
    fixISRSMax_rewrite _ headers cc v hv hv0 hvs]
  exact ⟨rfl, rfl⟩

/-- C7 witness: the spec scenario — `HIT`, last-modified = now − 100s,
`s-maxage=500, stale-while-revalidate=60` — yields
`s-maxage=400, stale-while-revalidate=2592000` and clears the recorded
last-modified. -/
theorem c7_hit_rewrites_remaining_ttl_witness :
    ((fixISRHeaders 101000
        [(nextCacheH, HVal.str "HIT"),
          (cacheControlH, HVal.str "s-maxage=500, stale-while-revalidate=60")] 1000).1 =
      hSet
        [(nextCacheH, HVal.str "HIT"),
          (cacheControlH, HVal.str "s-maxage=500, stale-while-revalidate=60")]
        cacheControlH
        (.str ("s-maxage=" ++
          intDec (max ((500 : Int) - jsRoundDiv1000 (101000 - 1000)) 1) ++
          ", stale-while-revalidate=2592000")) ∧
      (fixISRHeaders 101000
        [(nextCacheH, HVal.str "HIT"),
          (cacheControlH, HVal.str "s-maxage=500, stale-while-revalidate=60")] 1000).2 = 0) ∧
    hGet (fixISRHeaders 101000
        [(nextCacheH, HVal.str "HIT"),
          (cacheControlH, HVal.str "s-maxage=500, stale-while-revalidate=60")] 1000).1
      cacheControlH =
      some (.str "s-maxage=400, stale-while-revalidate=2592000") :=
  ⟨c7_hit_rewrites_remaining_ttl 101000 1000
      [(nextCacheH, HVal.str "HIT"),
        (cacheControlH, HVal.str "s-maxage=500, stale-while-revalidate=60")]
      "s-maxage=500, stale-while-revalidate=60" 500 rfl (by decide) rfl rfl
      (by decide) (by decide),
    by decide⟩

/-- C3 (refuting the claim as stated): `fixCacheHeaderForHtmlPages` only
rewrites when a truthy cache-control is already present, so an HTML-page
response carrying no cache-control at all is left untouched — the opposite
of the claimed behaviour (and of the in-code workaround comment); a
response that does carry one is overwritten with the baseline. -/
theorem c3_missing_cache_control_left_unset :
    hGet [(nextCacheH, HVal.str "MISS")] cacheControlH = none ∧
    fixCacheHeaderForHtmlPages ["/index"] "/index" [(nextCacheH, HVal.str "MISS")] =
      [(nextCacheH, HVal.str "MISS")] ∧
    fixCacheHeaderForHtmlPages ["/index"] "/index"
        [(cacheControlH, HVal.str "no-store")] =
      [(cacheControlH,
        HVal.str "public, max-age=0, s-maxage=31536000, must-revalidate")] := by
  refine ⟨rfl, rfl, rfl⟩

/-- C9: for a `STALE` response whose request was internally rewritten, when
the original `rawPath` starts with `/_next/data/` the URL submitted to the
revalidation queue is `/_next/data/` ++ buildId ++ rewritten path ++
`.json` (the data artifact); when it lacks that prefix, the rewritten URL
is submitted as-is. -/
theorem c9_stale_rewrite_targets_data_artifact (env : Env) (buildId : String)
    (mc : Nat) (host rawPath : String) (headers : Headers) (m : RequestMeta) (lm : Int)
    (hst : hGet headers nextCacheH = some (.str "STALE"))
    (hq : env.failQueueSend = false)
    (hrw : m.nextDidRewrite = true) :
    ∃ msg, (revalidateIfRequired env buildId mc host rawPath headers (some m) lm).2.2 =
        some msg ∧
      msg.host = host ∧
      msg.url = (if jsStartsWith rawPath "/_next/data/" then
          "/_next/data/" ++ buildId ++ m.nextRewroteUrl ++ ".json"
        else m.nextRewroteUrl) := by
  unfold revalidateIfRequired
  have hst' :
      hGet (fixISRHeaders env.now headers lm).1 nextCacheH = some (.str "STALE") := by
    rw [fixISRHeaders_nextCache]
    exact hst
  rw [if_pos hst', hq]
  refine ⟨_, rfl, rfl, ?_⟩
  show revalidateUrl buildId (some m) rawPath = _
  rw [revalidateUrl, if_pos hrw]

/-- C9 witness: a rewritten data request regenerates the `.json` data
artifact; a rewritten page request regenerates the rewritten path. -/
theorem c9_stale_rewrite_targets_data_artifact_witness :
    (∃ msg, (revalidateIfRequired
        ⟨false, 0, "", fun _ => false, fun _ _ => 0, false, false, false, false, false,
          false⟩
        "BID" 10 "example.com" "/_next/data/OLD/foo.json"
        [(nextCacheH, HVal.str "STALE")] (some ⟨true, "/rewritten"⟩) 0).2.2 = some msg ∧
      msg.host = "example.com" ∧
      msg.url = (if jsStartsWith "/_next/data/OLD/foo.json" "/_next/data/" then
          "/_next/data/" ++ "BID" ++ "/rewritten" ++ ".json"
        else "/rewritten")) ∧
    (∃ msg, (revalidateIfRequired
        ⟨false, 0, "", fun _ => false, fun _ _ => 0, false, false, false, false, false,
          false⟩
        "BID" 10 "example.com" "/foo"
        [(nextCacheH, HVal.str "STALE")] (some ⟨true, "/rewritten"⟩) 0).2.2 = some msg ∧
      msg.host = "example.com" ∧
      msg.url = (if jsStartsWith "/foo" "/_next/data/" then
          "/_next/data/" ++ "BID" ++ "/rewritten" ++ ".json"
        else "/rewritten")) :=
  ⟨c9_stale_rewrite_targets_data_artifact _ "BID" 10 "example.com"
      "/_next/data/OLD/foo.json" [(nextCacheH, HVal.str "STALE")] ⟨true, "/rewritten"⟩ 0
      rfl rfl rfl,
    c9_stale_rewrite_targets_data_artifact _ "BID" 10 "example.com" "/foo"
      [(nextCacheH, HVal.str "STALE")] ⟨true, "/rewritten"⟩ 0 rfl rfl rfl⟩

/-- C8: the deduplication fingerprint (the MD5 preimage
`${rawPath}-${lastModified}` from which the submitted dedup id is computed
by a fixed digest) is deterministic in the pair (path, last-known-modified)
and is changed by changing either the path (at a fixed timestamp) or the
(non-negative) timestamp (at a fixed path). -/
theorem c8_dedup_fingerprint_deterministic_sensitive :
    (∀ (p1 p2 : String) (lm1 lm2 : Int), p1 = p2 → lm1 = lm2 →
      dedupFingerprint p1 lm1 = dedupFingerprint p2 lm2) ∧
    (∀ (p1 p2 : String) (lm : Int), p1 ≠ p2 →
      dedupFingerprint p1 lm ≠ dedupFingerprint p2 lm) ∧
    (∀ (p : String) (lm1 lm2 : Int), 0 ≤ lm1 → 0 ≤ lm2 → lm1 ≠ lm2 →
      dedupFingerprint p lm1 ≠ dedupFingerprint p lm2) := by
  refine ⟨fun p1 p2 lm1 lm2 hp hl => by rw [hp, hl], ?_, ?_⟩
  · intro p1 p2 lm hne heq
    unfold dedupFingerprint at heq
    exact hne
      (string_append_cancel_right _ _ _ (string_append_cancel_right _ _ _ heq))
  · intro p lm1 lm2 h1 h2 hne heq
    unfold dedupFingerprint at heq
    have hss := string_append_cancel_left _ _ _ heq
    split_ifs at hss with hp1 hp2 hp2
    · have := natDec_inj _ _ hss
      omega
    · exact natDec_ne_empty _ hss
    · exact natDec_ne_empty _ hss.symm
    · omega

/-- C8 witness: concrete sensitivity and determinism of the fingerprint. -/
theorem c8_dedup_fingerprint_witness :
    dedupFingerprint "/a" 5 = dedupFingerprint "/a" 5 ∧
    dedupFingerprint "/a" 5 ≠ dedupFingerprint "/b" 5 ∧
    dedupFingerprint "/a" 5 ≠ dedupFingerprint "/a" 6 :=
  ⟨c8_dedup_fingerprint_deterministic_sensitive.1 "/a" "/a" 5 5 rfl rfl,
    c8_dedup_fingerprint_deterministic_sensitive.2.1 "/a" "/b" 5 (by decide),
    c8_dedup_fingerprint_deterministic_sensitive.2.2 "/a" 5 6 (by decide) (by decide)
      (by decide)⟩

/-- C2 evidence (the claim fails on the code): `S3Cache.set` wraps nothing
in try/catch, so a rejection from an awaited artifact-store write (here: a
route artifact with a failing store) or from the tag store (here: an image
artifact with a failing `getByPath`) propagates out of `set` instead of
being caught and logged. -/
theorem c2_set_failure_propagates :
    S3Cache.set
      ⟨false, 0, "", fun _ => false, fun _ _ => 0, false, true, false, false, false,
        false⟩
      ⟨[], [], [], [], []⟩ "k" (some (.route [] 200 [])) none = .error () ∧
    S3Cache.set
      ⟨false, 0, "", fun _ => false, fun _ _ => 0, false, false, false, true, false,
        false⟩
      ⟨[], [], [], [], []⟩ "k" (some (.image ⟨"e", [], "png", none, none⟩)) none =
      .error () := by
  exact ⟨rfl, rfl⟩

/-- C4: whenever the tag-staleness check (`tagClient.getLastModified`)
returns the stale sentinel −1 for the key, both `getFetchCache` and
`getIncrementalCache` return null — even when an intact artifact exists in
the artifact store. -/
theorem c4_stale_sentinel_forces_miss (env : Env) (w : World) (key : String)
    (hf : env.tagLastModified key ((assocLookup w.fetchStore key).map Prod.snd) = -1)
    (hm : env.tagLastModified key ((assocLookup w.mainStore key).map Prod.snd) = -1) :
    S3Cache.getFetchCache env w key = none ∧
    (S3Cache.getIncrementalCache env w key).1 = none := by
  constructor
  · unfold S3Cache.getFetchCache
    by_cases hg : env.failClientGet = true
    · rw [if_pos hg]
    · rw [if_neg hg]
      simp [hf]
  · unfold S3Cache.getIncrementalCache
    by_cases hg : env.failClientGet = true
    · rw [if_pos hg]
    · rw [if_neg hg]
      simp [hm]

/-- C4 witness: a world holding intact artifacts under the key in both
stores, with a tag oracle that always reports the sentinel, misses on both
variants. -/
theorem c4_stale_sentinel_forces_miss_witness :
    S3Cache.getFetchCache
      ⟨false, 0, "", fun _ => false, fun _ _ => -1, false, false, false, false, false,
        false⟩
      ⟨[("k", (.redirect ⟨[]⟩, 5))], [("k", (⟨⟨[], "b", "u", none, none⟩, 3⟩, 5))],
        [], [], []⟩ "k" = none ∧
    (S3Cache.getIncrementalCache
      ⟨false, 0, "", fun _ => false, fun _ _ => -1, false, false, false, false, false,
        false⟩
      ⟨[("k", (.redirect ⟨[]⟩, 5))], [("k", (⟨⟨[], "b", "u", none, none⟩, 3⟩, 5))],
        [], [], []⟩ "k").1 = none :=
  c4_stale_sentinel_forces_miss _ _ "k" rfl rfl

/-- C10: calling `set` with an `IMAGE` artifact performs neither a write nor
a delete on the artifact store and derives an empty tag set, while the tag
store is still queried for the key's bound tags (and nothing is written to
it); only `FETCH` and `PAGE` artifacts ever derive tags. -/
theorem c10_image_set_is_store_noop (env : Env) (w : World) (key : String)
    (img : ImageVal) (ctx : Option SetCtx)
    (hd : env.disableIncrementalCache = false)
    (ht : env.failTagGetByPath = false) :
    (∃ w2, S3Cache.set env w key (some (.image img)) ctx = .ok w2 ∧
      w2.mainStore = w.mainStore ∧ w2.fetchStore = w.fetchStore ∧
      w2.bindings = w.bindings ∧
      w2.trace = w.trace ++ [.tagGetByPath key]) ∧
    derivedTags (some (.image img)) ctx = [] ∧
    (∀ (d : CacheValue) (ctx2 : Option SetCtx), derivedTags (some d) ctx2 ≠ [] →
      (∃ f, d = .fetch f) ∨
      (∃ html pd st hs, d = .page html pd st hs)) := by
  refine ⟨⟨{ w with trace := w.trace ++ [.tagGetByPath key] }, ?_, rfl, rfl, rfl, rfl⟩,
    rfl, ?_⟩
  · unfold S3Cache.set setPersist setTagPhase tagGetByPath
    rw [hd, ht]
    rfl
  · intro d ctx2 hne
    cases d with
    | route b s h => exact absurd rfl hne
    | page html pd st hs => exact Or.inr ⟨html, pd, st, hs, rfl⟩
    | redirect p => exact absurd rfl hne
    | fetch f => exact Or.inl ⟨f, rfl⟩
    | image i => exact absurd rfl hne

/-- C10 witness: a concrete image write against a non-empty world leaves
both stores and the bindings untouched and only queries the tag store. -/
theorem c10_image_set_is_store_noop_witness :
    (∃ w2, S3Cache.set
        ⟨false, 9, "r", fun _ => false, fun _ _ => 0, false, false, false, false, false,
          false⟩
        ⟨[("p", (.app "h" "r", 1))], [], [("p", "t")], [], []⟩ "k"
        (some (.image ⟨"etag", [1, 2], "png", none, none⟩)) none = .ok w2 ∧
      w2.mainStore = [("p", (.app "h" "r", 1))] ∧ w2.fetchStore = [] ∧
      w2.bindings = [("p", "t")] ∧
      w2.trace = [] ++ [.tagGetByPath "k"]) ∧
    derivedTags (some (.image ⟨"etag", [1, 2], "png", none, none⟩)) none = [] ∧
    (∀ (d : CacheValue) (ctx2 : Option SetCtx), derivedTags (some d) ctx2 ≠ [] →
      (∃ f, d = .fetch f) ∨
      (∃ html pd st hs, d = .page html pd st hs)) :=
  c10_image_set_is_store_noop _ ⟨[("p", (.app "h" "r", 1))], [], [("p", "t")], [], []⟩
    "k" ⟨"etag", [1, 2], "png", none, none⟩ none rfl rfl

/-- With no injected store failure, the persistence half of `set` succeeds
and never touches the tag bindings. -/
theorem setPersist_ok (env : Env) (w : World) (key : String) (data : Option CacheValue)
    (hcs : env.failClientSet = false) (hcd : env.failClientDelete = false) :
    ∃ w1, setPersist env w key data = .ok w1 ∧ w1.bindings = w.bindings ∧
      w1.lastModifiedMap = w.lastModifiedMap := by
  cases data with
  | none =>
    refine ⟨{ w with
        mainStore := assocRemove w.mainStore key,
        trace := w.trace ++ [.clientDelete key] }, ?_, rfl, rfl⟩
    unfold setPersist clientDelete
    rw [hcd]
    rfl
  | some v =>
    cases v with
    | route body status headers =>
      refine ⟨{ w with
          mainStore := assocSet w.mainStore key
            (.route (bufToString
                (env.isBinaryContentType (jsString (hGet headers "content-type"))) body)
              status headers, env.now),
          trace := w.trace ++ [.clientSet key false] }, ?_, rfl, rfl⟩
      unfold setPersist clientSetMain
      rw [hcs]
      rfl
    | page html pd st hs =>
      cases pd with
      | app rsc =>
        refine ⟨clientSetMainNoAwait env w key (.app html rsc), rfl, ?_, ?_⟩ <;>
          · unfold clientSetMainNoAwait
            split_ifs <;> rfl
      | pages json =>
        refine ⟨clientSetMainNoAwait env w key (.page html json), rfl, ?_, ?_⟩ <;>
          · unfold clientSetMainNoAwait
            split_ifs <;> rfl
    | redirect props =>
      refine ⟨{ w with
          mainStore := assocSet w.mainStore key (.redirect props, env.now),
          trace := w.trace ++ [.clientSet key false] }, ?_, rfl, rfl⟩
      unfold setPersist clientSetMain
      rw [hcs]
      rfl
    | fetch f =>
      refine ⟨{ w with
          fetchStore := assocSet w.fetchStore key (f, env.now),
          trace := w.trace ++ [.clientSet key true] }, ?_, rfl, rfl⟩
      unfold setPersist clientSetFetch
      rw [hcs]
      rfl
    | image img => exact ⟨w, rfl, rfl, rfl⟩

theorem tagGetByPath_ok (env : Env) (w1 : World) (key : String)
    (htg : env.failTagGetByPath = false) :
    tagGetByPath env w1 key =
      .ok ((w1.bindings.filter (fun p => p.1 == key)).map (fun p => p.2),
        { w1 with trace := w1.trace ++ [.tagGetByPath key] }) := by
  unfold tagGetByPath
  rw [htg]
  rfl

theorem tagWriteTags_ok (env : Env) (w : World) (pairs : List (String × String))
    (htw : env.failTagWriteTags = false) :
    tagWriteTags env w pairs =
      .ok { w with
        bindings := w.bindings ++ pairs,
        trace := w.trace ++ [.tagWriteTags pairs] } := by
  unfold tagWriteTags
  rw [htw]
  rfl

theorem setTagPhase_after_get (env : Env) (w1 : World) (key : String)
    (derived stored : List String) (w2 : World)
    (hget : tagGetByPath env w1 key = .ok (stored, w2)) :
    setTagPhase env w1 key derived =
      (if (derived.filter (fun t => !(stored.contains t))).length > 0 then
        tagWriteTags env w2
          ((derived.filter (fun t => !(stored.contains t))).map (fun t => (key, t)))
      else .ok w2) := by
  unfold setTagPhase
  rw [hget]

/-- With no injected tag-store failure, the tag half of `set` succeeds,
leaves both artifact stores and the last-modified record untouched, and
appends exactly the derived tags not already stored for the key. -/
theorem setTagPhase_ok (env : Env) (w1 : World) (key : String) (derived : List String)
    (htg : env.failTagGetByPath = false) (htw : env.failTagWriteTags = false) :
    ∃ w2, setTagPhase env w1 key derived = .ok w2 ∧
      w2.mainStore = w1.mainStore ∧ w2.fetchStore = w1.fetchStore ∧
      w2.lastModifiedMap = w1.lastModifiedMap ∧
      w2.bindings = w1.bindings ++
        (derived.filter (fun t =>
          !(((w1.bindings.filter (fun p => p.1 == key)).map (fun p => p.2)).contains
            t))).map (fun t => (key, t)) := by
  rw [setTagPhase_after_get env w1 key derived _ _ (tagGetByPath_ok env w1 key htg)]
  by_cases hl : (derived.filter (fun t =>
      !(((w1.bindings.filter (fun p => p.1 == key)).map (fun p => p.2)).contains
        t))).length > 0
  · rw [if_pos hl, tagWriteTags_ok env _ _ htw]
    exact ⟨_, rfl, rfl, rfl, rfl, rfl⟩
  · rw [if_neg hl]
    refine ⟨_, rfl, rfl, rfl, rfl, ?_⟩
    have hnil : (derived.filter (fun t =>
        !(((w1.bindings.filter (fun p => p.1 == key)).map (fun p => p.2)).contains
          t))) = [] :=
      List.length_eq_zero.mp (Nat.eq_zero_of_not_pos hl)
    rw [hnil, List.map_nil, List.append_nil]

/-- With no injected failure, `S3Cache.set` succeeds and its effect on the
tag bindings is exactly: append the derived tags not already stored for the
key (a set never removes a binding). -/
theorem S3Cache_set_ok (env : Env) (w : World) (key : String)
    (data : Option CacheValue) (ctx : Option SetCtx)
    (hd : env.disableIncrementalCache = false) (hcs : env.failClientSet = false)
    (hcd : env.failClientDelete = false) (htg : env.failTagGetByPath = false)
    (htw : env.failTagWriteTags = false) :
    ∃ w2, S3Cache.set env w key data ctx = .ok w2 ∧
      w2.bindings = w.bindings ++
        ((derivedTags data ctx).filter (fun t =>
          !(((w.bindings.filter (fun p => p.1 == key)).map (fun p => p.2)).contains
            t))).map (fun t => (key, t)) := by
  obtain ⟨w1, h1, hb1, _⟩ := setPersist_ok env w key data hcs hcd
  obtain ⟨w2, h2, _, _, _, hb2⟩ :=
    setTagPhase_ok env w1 key (derivedTags data ctx) htg htw
  refine ⟨w2, ?_, ?_⟩
  · unfold S3Cache.set
    rw [hd, if_neg (show ¬(false = true) by decide), h1]
    exact h2
  · rw [hb2, hb1]

theorem boundTags_append_own (bs : List (String × String)) (key : String)
    (l : List String) :
    ((bs ++ l.map (fun t => (key, t))).filter (fun p => p.1 == key)).map
        (fun p => p.2) =
      ((bs.filter (fun p => p.1 == key)).map (fun p => p.2)) ++ l := by
  rw [List.filter_append, List.map_append]
  congr 1
  induction l with
  | nil => rfl
  | cons t ts ih =>
    rw [List.map_cons, List.filter_cons]
    simp only [beq_self_eq_true, if_true]
    rw [List.map_cons, ih]

theorem nodup_append_filter (d1 d2 : List String) (h1 : d1.Nodup) (h2 : d2.Nodup) :
    (d1 ++ d2.filter (fun t => !(d1.contains t))).Nodup := by
  refine List.Nodup.append h1 (h2.filter _) ?_
  intro a ha1 ha2
  rw [List.mem_filter] at ha2
  have hb := ha2.2
  rw [Bool.not_eq_true'] at hb
  have hcon : d1.contains a = true := List.elem_iff.mpr ha1
  rw [hb] at hcon
  cases hcon

theorem mem_append_filter (d1 d2 : List String) (t : String) :
    t ∈ d1 ++ d2.filter (fun x => !(d1.contains x)) ↔ t ∈ d1 ∨ t ∈ d2 := by
  rw [List.mem_append, List.mem_filter]
  by_cases h : t ∈ d1
  · simp [h]
  · have hc : d1.contains t = false := by
      rw [Bool.eq_false_iff]
      intro hcon
      exact h (List.elem_iff.mp hcon)
    simp [h, hc]

/-- C5: starting from a key with no bound tags, after `set(k, a1)` then
`set(k, a2)` the bindings for `k` are exactly the first derivation followed
by the second derivation's tags not in the first — duplicate-free and, as a
set, the union of both derivations; each set only appends the derived tags
not already stored for the key and never removes a binding. -/
theorem c5_tag_bindings_union (env : Env) (w : World) (key : String)
    (data1 data2 : Option CacheValue) (ctx1 ctx2 : Option SetCtx)
    (hd : env.disableIncrementalCache = false) (hcs : env.failClientSet = false)
    (hcd : env.failClientDelete = false) (htg : env.failTagGetByPath = false)
    (htw : env.failTagWriteTags = false)
    (hfresh : w.bindings.filter (fun p => p.1 == key) = [])
    (hn1 : (derivedTags data1 ctx1).Nodup) (hn2 : (derivedTags data2 ctx2).Nodup) :
    ∃ w1 w2, S3Cache.set env w key data1 ctx1 = .ok w1 ∧
      S3Cache.set env w1 key data2 ctx2 = .ok w2 ∧
      w1.bindings = w.bindings ++ (derivedTags data1 ctx1).map (fun t => (key, t)) ∧
      w2.bindings = w1.bindings ++
        ((derivedTags data2 ctx2).filter (fun t =>
          !((derivedTags data1 ctx1).contains t))).map (fun t => (key, t)) ∧
      boundTags w2 key =
        derivedTags data1 ctx1 ++
          (derivedTags data2 ctx2).filter (fun t =>
            !((derivedTags data1 ctx1).contains t)) ∧
      (boundTags w2 key).Nodup ∧
      (∀ t, t ∈ boundTags w2 key ↔
        t ∈ derivedTags data1 ctx1 ∨ t ∈ derivedTags data2 ctx2) := by
  obtain ⟨w1, hset1, hb1⟩ := S3Cache_set_ok env w key data1 ctx1 hd hcs hcd htg htw
  have hstored : (w.bindings.filter (fun p => p.1 == key)).map (fun p => p.2) = [] := by
    rw [hfresh]
    rfl
  rw [hstored] at hb1
  have hfil1 : (derivedTags data1 ctx1).filter
      (fun t => !(([] : List String).contains t)) = derivedTags data1 ctx1 :=
    List.filter_eq_self.mpr (fun a _ => rfl)
  rw [hfil1] at hb1
  have hbt1 : (w1.bindings.filter (fun p => p.1 == key)).map (fun p => p.2) =
      derivedTags data1 ctx1 := by
    rw [hb1, boundTags_append_own, hstored, List.nil_append]
  obtain ⟨w2, hset2, hb2⟩ := S3Cache_set_ok env w1 key data2 ctx2 hd hcs hcd htg htw
  rw [hbt1] at hb2
  have hbt2 : boundTags w2 key =
      derivedTags data1 ctx1 ++
        (derivedTags data2 ctx2).filter (fun t =>
          !((derivedTags data1 ctx1).contains t)) := by
    unfold boundTags
    rw [hb2, boundTags_append_own, hbt1]
  refine ⟨w1, w2, hset1, hset2, hb1, hb2, hbt2, ?_, ?_⟩
  · rw [hbt2]
    exact nodup_append_filter _ _ hn1 hn2
  · intro t
    rw [hbt2]
    exact mem_append_filter _ _ t

/-- C5 witness: two page writes deriving the overlapping tag sets
`["a","b"]` and `["b","c"]` on a fresh key. -/
theorem c5_tag_bindings_union_witness :
    ∃ w1 w2,
      S3Cache.set
          ⟨false, 0, "", fun _ => false, fun _ _ => 0, false, false, false, false,
            false, false⟩
          ⟨[], [], [], [], []⟩ "k"
          (some (.page "h" (.app "r") none (some [("x-next-cache-tags", "a,b")])))
          none = .ok w1 ∧
      S3Cache.set
          ⟨false, 0, "", fun _ => false, fun _ _ => 0, false, false, false, false,
            false, false⟩
          w1 "k"
          (some (.page "h" (.app "r") none (some [("x-next-cache-tags", "b,c")])))
          none = .ok w2 ∧
      w1.bindings = ([] : List (String × String)) ++
        (derivedTags
          (some (.page "h" (.app "r") none (some [("x-next-cache-tags", "a,b")])))
          none).map (fun t => ("k", t)) ∧
      w2.bindings = w1.bindings ++
        ((derivedTags
            (some (.page "h" (.app "r") none (some [("x-next-cache-tags", "b,c")])))
            none).filter (fun t =>
          !((derivedTags
              (some (.page "h" (.app "r") none (some [("x-next-cache-tags", "a,b")])))
              none).contains t))).map (fun t => ("k", t)) ∧
      boundTags w2 "k" =
        derivedTags
            (some (.page "h" (.app "r") none (some [("x-next-cache-tags", "a,b")])))
            none ++
          (derivedTags
              (some (.page "h" (.app "r") none (some [("x-next-cache-tags", "b,c")])))
              none).filter (fun t =>
            !((derivedTags
                (some (.page "h" (.app "r") none (some [("x-next-cache-tags", "a,b")])))
                none).contains t)) ∧
      (boundTags w2 "k").Nodup ∧
      (∀ t, t ∈ boundTags w2 "k" ↔
        t ∈ derivedTags
            (some (.page "h" (.app "r") none (some [("x-next-cache-tags", "a,b")])))
            none ∨
        t ∈ derivedTags
            (some (.page "h" (.app "r") none (some [("x-next-cache-tags", "b,c")])))
            none) :=
  c5_tag_bindings_union
    ⟨false, 0, "", fun _ => false, fun _ _ => 0, false, false, false, false, false,
      false⟩
    ⟨[], [], [], [], []⟩ "k"
    (some (.page "h" (.app "r") none (some [("x-next-cache-tags", "a,b")])))
    (some (.page "h" (.app "r") none (some [("x-next-cache-tags", "b,c")])))
    none none rfl rfl rfl rfl rfl rfl (by decide) (by decide)

/-- A stored record under the key with a non-sentinel tag answer decodes to
a hit. -/
theorem getIncrementalCache_hit (env : Env) (w : World) (key : String) (wire : Wire)
    (t : Int) (hcg : env.failClientGet = false)
    (hms : assocLookup w.mainStore key = some (wire, t))
    (hlm : env.tagLastModified key (some t) ≠ -1) :
    (S3Cache.getIncrementalCache env w key).1 =
      some ⟨env.tagLastModified key (some t), decodeWire env wire⟩ := by
  unfold S3Cache.getIncrementalCache
  rw [hcg, if_neg (show ¬(false = true) by decide), hms]
  simp only [Option.map_some']
  rw [if_neg hlm]

/-- Round-trip conditions of the amended C1: a route body must be a byte
list under a binary-classified content type or valid UTF-8 under a
non-binary one; a page artifact must carry no status/headers (the page wire
shape stores neither); redirects round-trip unconditionally; fetch and
image artifacts are outside the claim. -/
def roundTrippable (env : Env) (a : CacheValue) : Prop :=
  match a with
  | .route body _ headers =>
    if env.isBinaryContentType (jsString (hGet headers "content-type")) then
      ∀ b ∈ body, b < 256
    else ∃ s, utf8Encode s = body
  | .page _ _ status headers => status = none ∧ headers = none
  | .redirect _ => True
  | .fetch _ => False
  | .image _ => False

/-- `Buffer.from(body.toString(enc), enc)` is the identity under the
round-trip conditions. -/
theorem bufFrom_bufToString (bin : Bool) (body : List Nat)
    (h : if bin = true then ∀ b ∈ body, b < 256 else ∃ s, utf8Encode s = body) :
    bufFrom bin (bufToString bin body) = body := by
  cases bin with
  | true =>
    rw [if_pos rfl] at h
    unfold bufFrom bufToString
    rw [if_pos rfl, if_pos rfl]
    exact base64Decode_base64Encode body h
  | false =>
    rw [if_neg (show ¬(false = true) by decide)] at h
    obtain ⟨s, hs⟩ := h
    unfold bufFrom bufToString
    rw [if_neg (show ¬(false = true) by decide), if_neg (show ¬(false = true) by decide)]
    rw [← hs, utf8DecodeR_utf8Encode]

/-- Common pipeline for the amended C1: once the persistence half stored
`wire` under the key, `set` succeeds and a following `getIncrementalCache`
returns the decoded wire with the oracle's timestamp. -/
theorem setMain_get (env : Env) (w : World) (key : String) (a : CacheValue)
    (ctx : Option SetCtx) (wire : Wire)
    (hd : env.disableIncrementalCache = false)
    (htg : env.failTagGetByPath = false) (htw : env.failTagWriteTags = false)
    (hcg : env.failClientGet = false)
    (hlm : env.tagLastModified key (some env.now) ≠ -1)
    (hpersist : setPersist env w key (some a) = .ok { w with
        mainStore := assocSet w.mainStore key (wire, env.now),
        trace := w.trace ++ [.clientSet key false] }) :
    ∃ w2, S3Cache.set env w key (some a) ctx = .ok w2 ∧
      (S3Cache.getIncrementalCache env w2 key).1 =
        some ⟨env.tagLastModified key (some env.now), decodeWire env wire⟩ := by
  obtain ⟨w2, hphase, hm2, _, _, _⟩ :=
    setTagPhase_ok env
      { w with
        mainStore := assocSet w.mainStore key (wire, env.now),
        trace := w.trace ++ [.clientSet key false] }
      key (derivedTags (some a) ctx) htg htw
  refine ⟨w2, ?_, ?_⟩
  · unfold S3Cache.set
    rw [hd, if_neg (show ¬(false = true) by decide), hpersist]
    exact hphase
  · have hlook : assocLookup w2.mainStore key = some (wire, env.now) := by
      rw [hm2]
      exact assocLookup_set_self w.mainStore key (wire, env.now)
    exact getIncrementalCache_hit env w2 key wire env.now hcg hlook hlm

/-- C1 (amended): storing a route, page (app- or pages-shape) or redirect
artifact with `set(key, a)` and reading it back with `get(key)` returns an
artifact equal to `a`, provided a route body is valid UTF-8 whenever its
content type is classified non-binary (binary-classified bodies are
arbitrary bytes) and a page artifact carries no status/headers — the page
wire shape stores neither, and a non-binary invalid-UTF-8 route body would
be corrupted by the text transcoding. -/
theorem c1_set_get_roundtrip (env : Env) (w : World) (key : String) (a : CacheValue)
    (ctx : Option SetCtx)
    (hd : env.disableIncrementalCache = false) (hcs : env.failClientSet = false)
    (htg : env.failTagGetByPath = false) (htw : env.failTagWriteTags = false)
    (hcg : env.failClientGet = false)
    (hlm : env.tagLastModified key (some env.now) ≠ -1)
    (hrt : roundTrippable env a) :
    ∃ w2, S3Cache.set env w key (some a) ctx = .ok w2 ∧
      (S3Cache.getIncrementalCache env w2 key).1 =
        some ⟨env.tagLastModified key (some env.now), a⟩ := by
  cases a with
  | route body status headers =>
    have hper : setPersist env w key (some (.route body status headers)) =
        .ok { w with
          mainStore := assocSet w.mainStore key
            (.route
              (bufToString
                (env.isBinaryContentType (jsString (hGet headers "content-type"))) body)
              status headers, env.now),
          trace := w.trace ++ [.clientSet key false] } := by
      unfold setPersist clientSetMain
      rw [hcs]
      rfl
    obtain ⟨w2, hset, hget⟩ := setMain_get env w key _ ctx _ hd htg htw hcg hlm hper
    refine ⟨w2, hset, ?_⟩
    rw [hget]
    have hdec : decodeWire env
        (.route
          (bufToString
            (env.isBinaryContentType (jsString (hGet headers "content-type"))) body)
          status headers) =
        .route
          (bufFrom (env.isBinaryContentType (jsString (hGet headers "content-type")))
            (bufToString
              (env.isBinaryContentType (jsString (hGet headers "content-type"))) body))
          status headers := rfl
    rw [hdec,
      bufFrom_bufToString (env.isBinaryContentType (jsString (hGet headers "content-type")))
        body hrt]
  | page html pd st hs =>
    obtain ⟨hst, hhs⟩ := hrt
    subst hst
    subst hhs
    cases pd with
    | app rsc =>
      have hper : setPersist env w key (some (.page html (.app rsc) none none)) =
          .ok { w with
            mainStore := assocSet w.mainStore key (.app html rsc, env.now),
            trace := w.trace ++ [.clientSet key false] } := by
        show Except.ok (clientSetMainNoAwait env w key (.app html rsc)) = _
        unfold clientSetMainNoAwait
        rw [hcs]
        rfl
      obtain ⟨w2, hset, hget⟩ := setMain_get env w key _ ctx _ hd htg htw hcg hlm hper
      exact ⟨w2, hset, hget⟩
    | pages json =>
      have hper : setPersist env w key (some (.page html (.pages json) none none)) =
          .ok { w with
            mainStore := assocSet w.mainStore key (.page html json, env.now),
            trace := w.trace ++ [.clientSet key false] } := by
        show Except.ok (clientSetMainNoAwait env w key (.page html json)) = _
        unfold clientSetMainNoAwait
        rw [hcs]
        rfl
      obtain ⟨w2, hset, hget⟩ := setMain_get env w key _ ctx _ hd htg htw hcg hlm hper
      exact ⟨w2, hset, hget⟩
  | redirect props =>
    have hper : setPersist env w key (some (.redirect props)) =
        .ok { w with
          mainStore := assocSet w.mainStore key (.redirect props, env.now),
          trace := w.trace ++ [.clientSet key false] } := by
      unfold setPersist clientSetMain
      rw [hcs]
      rfl
    obtain ⟨w2, hset, hget⟩ := setMain_get env w key _ ctx _ hd htg htw hcg hlm hper
    exact ⟨w2, hset, hget⟩
  | fetch f => exact hrt.elim
  | image img => exact hrt.elim

/-- C1 counterexample (the claim as stated fails): a page artifact carrying
`status: 200` does not round-trip — `set` stores page wire records without
any meta, so `get` decodes them with `status`/`headers` absent. -/
theorem c1_page_status_dropped :
    S3Cache.set
      ⟨false, 0, "", fun _ => false, fun _ _ => 0, false, false, false, false, false,
        false⟩
      ⟨[], [], [], [], []⟩ "k" (some (.page "<h>" (.app "r") (some 200) none)) none =
      .ok ⟨[("k", (.app "<h>" "r", 0))], [], [], [],
        [.clientSet "k" false, .tagGetByPath "k"]⟩ ∧
    (S3Cache.getIncrementalCache
      ⟨false, 0, "", fun _ => false, fun _ _ => 0, false, false, false, false, false,
        false⟩
      ⟨[("k", (.app "<h>" "r", 0))], [], [], [],
        [.clientSet "k" false, .tagGetByPath "k"]⟩ "k").1 =
      some ⟨0, .page "<h>" (.app "r") none none⟩ ∧
    CacheValue.page "<h>" (.app "r") none none ≠ .page "<h>" (.app "r") (some 200) none := by
  refine ⟨rfl, rfl, by decide⟩

/-- C1 witness: a binary-classified route artifact with body bytes
`[0, 255, 7]` (not valid UTF-8) round-trips intact through set/get. -/
theorem c1_set_get_roundtrip_witness :
    ∃ w2, S3Cache.set
        ⟨false, 0, "", fun s => s == "image/png", fun _ _ => 42, false, false, false,
          false, false, false⟩
        ⟨[], [], [], [], []⟩ "k"
        (some (.route [0, 255, 7] 200 [("content-type", HVal.str "image/png")])) none =
        .ok w2 ∧
      (S3Cache.getIncrementalCache
        ⟨false, 0, "", fun s => s == "image/png", fun _ _ => 42, false, false, false,
          false, false, false⟩
        w2 "k").1 =
        some ⟨42, .route [0, 255, 7] 200 [("content-type", HVal.str "image/png")]⟩ :=
  c1_set_get_roundtrip _ ⟨[], [], [], [], []⟩ "k" _ none rfl rfl rfl rfl rfl
    (by decide) (by decide : ∀ b ∈ ([0, 255, 7] : List Nat), b < 256)
